import Mathlib

/-!
Verification of the xml-api-aggregator pipeline: a shallow embedding of the
fetcher (`modules/dataFetcher.js`), the two-tier cache
(`modules/cacheManager.js`), the XML aggregator (`modules/xmlProcessor.js`)
and the aggregated-data request handler (`app.js`, route `/api/aggregated`),
with theorems about retry bounds, in-flight deduplication, order
preservation, cache expiry/eviction/delete semantics, cache-key derivation
and the empty-source warning path.

Network and clock effects are made explicit: every attempt's outcome comes
from an `oracle : Nat → AttemptOutcome` (attempt number to outcome), and the
current time is passed as a `Nat` millisecond value where the code reads
`Date.now()`.
-/

/-- Configuration record for one remote API source (`apiConfig` in
`dataFetcher.js`). `retries = 0` models the JS falsy case where
`apiConfig.retries || 3` applies the default. -/
structure ApiConfig where
  id : String
  name : String
  url : String
  retries : Nat := 0
deriving DecidableEq, Repr

/-- Outcome of one network attempt, supplied by the environment:
`axios.get` either resolves with a body or rejects with an error message. -/
inductive AttemptOutcome where
  | ok (body : String)
  | fail (msg : String)
deriving DecidableEq, Repr

/-- Result object returned by `fetchApiData`: the success record
(lines 80-96), the all-retries-exhausted failure record (lines 128-137,
carrying `attempts: maxRetries`), or the duplicate-request short-circuit
record (lines 30-35, `error: 'Request already in progress'`). -/
inductive FetchResult where
  | ok (apiId apiName body : String) (attempt : Nat)
  | exhausted (apiId apiName errMsg : String) (attempts : Nat)
  | inFlight (apiId errMsg : String)
deriving DecidableEq, Repr

/-- The `success` field of a fetch result object. -/
def FetchResult.success : FetchResult → Bool
  | .ok _ _ _ _ => true
  | .exhausted _ _ _ _ => false
  | .inFlight _ _ => false

/-- Outcome of the retry loop (`for attempt = 1..maxRetries` in
`fetchApiData`): either some attempt succeeded, or all attempts failed and
the last error is kept (`lastError`). The `Nat` component is the index of
the last attempt performed (attempts are numbered from 1). -/
inductive LoopResult where
  | succeeded (body : String) (attempt : Nat)
  | failedAll (lastError : String) (attempts : Nat)
deriving DecidableEq, Repr

/-- Number of attempts the loop performed: the index of the attempt that
succeeded, or the total attempt count when all failed. -/
def LoopResult.attemptCount : LoopResult → Nat
  | .succeeded _ a => a
  | .failedAll _ a => a

/-- The retry loop of `fetchApiData` (lines 63-111): attempt numbers start
at `attempt`, and `fuel` is the number of attempts still allowed. On
success the loop returns immediately; otherwise it records the error and
retries until the fuel is spent (backoff delays do not affect outcomes and
are not modelled). -/
def retryLoop (oracle : Nat → AttemptOutcome) (attempt : Nat) : Nat → LoopResult
  | 0 => .failedAll "" 0
  | fuel + 1 =>
    match oracle attempt with
    | .ok body => .succeeded body attempt
    | .fail msg =>
      match fuel with
      | 0 => .failedAll msg attempt
      | fuel' + 1 => retryLoop oracle (attempt + 1) (fuel' + 1)

/-- Mutable state of the `DataFetcher`: the `activeRequests` map keyed by
api id (insertion-ordered, as a JS `Map`); only the keys matter for the
deduplication logic, so the state keeps the key list. -/
structure FetcherState where
  activeRequests : List String
deriving DecidableEq, Repr

/-- What one `fetchApiData` call produces: the returned result object, the
fetcher state after the `finally` block ran, and how many network attempts
were performed during the call. -/
structure FetchCallResult where
  result : FetchResult
  state : FetcherState
  attemptsMade : Nat
deriving DecidableEq, Repr

/-- The effective retry budget: `apiConfig.retries || 3`. -/
def maxRetriesOf (cfg : ApiConfig) : Nat :=
  if cfg.retries = 0 then 3 else cfg.retries

/-- One `fetchApiData` call (lines 23-165): if the id is already registered
in `activeRequests` the call returns the in-progress failure immediately
without touching the state and without any network attempt; otherwise the
id is registered, the retry loop runs, and the `finally` block removes the
registration before the call returns. -/
def fetchApiData (st : FetcherState) (cfg : ApiConfig)
    (oracle : Nat → AttemptOutcome) : FetchCallResult :=
  if st.activeRequests.contains cfg.id then
    ⟨.inFlight cfg.id "Request already in progress", st, 0⟩
  else
    let active := st.activeRequests ++ [cfg.id]
    let r := retryLoop oracle 1 (maxRetriesOf cfg)
    let result :=
      match r with
      | .succeeded body attempt => FetchResult.ok cfg.id cfg.name body attempt
      | .failedAll msg attempts => FetchResult.exhausted cfg.id cfg.name msg attempts
    ⟨result, ⟨active.erase cfg.id⟩, r.attemptCount⟩

/-- The outcome a single descriptor contributes to a bulk fetch: the result
object of its `fetchApiData` call (`behavior` assigns each api id its
per-attempt outcomes). -/
def fetchOutcome (st : FetcherState) (behavior : String → Nat → AttemptOutcome)
    (cfg : ApiConfig) : FetchResult :=
  (fetchApiData st cfg (behavior cfg.id)).result

/-- `Promise.all` over a list of already-created fetch promises resolves to
their values in the order the promises were listed. -/
def promiseAll (promises : List FetchResult) : List FetchResult :=
  promises

/-- `fetchSequentially` (lines 223-232): awaits each promise in turn and
pushes its result onto the accumulator, returning the accumulated list. -/
def fetchSequentially : List FetchResult → List FetchResult → List FetchResult
  | [], results => results
  | p :: ps, results => fetchSequentially ps (results ++ [p])

/-- Return value of `fetchAllApis`: a bare empty array when no API is
enabled (line 178), otherwise the summary record of lines 203-210 with its
`total`, `successful`, `failed` and `results` fields. -/
inductive FetchAllReturn where
  | emptyList : FetchAllReturn
  | record (total successful failed : Nat) (results : List FetchResult) : FetchAllReturn
deriving DecidableEq, Repr

/-- `fetchAllApis` (lines 172-216): with no enabled API it returns `[]`;
otherwise it maps every descriptor to a fetch promise, resolves them in
parallel (`Promise.all`) or sequentially, and wraps the results in the
summary record. -/
def fetchAllApis (st : FetcherState) (behavior : String → Nat → AttemptOutcome)
    (enabledApis : List ApiConfig) (sequential : Bool) : FetchAllReturn :=
  if enabledApis.isEmpty then
    .emptyList
  else
    let fetchPromises := enabledApis.map (fetchOutcome st behavior)
    let results :=
      if sequential then fetchSequentially fetchPromises []
      else promiseAll fetchPromises
    let successful := results.filter (fun r => r.success)
    let failed := results.filter (fun r => !r.success)
    .record results.length successful.length failed.length results

/-- One processed XML source as produced by `xmlProcessor.processXmlData`:
the `success` flag, the source identity, the (normalized) parsed content
and the error message of the failure case. -/
structure ProcessedResult where
  success : Bool
  apiId : String
  apiName : String
  parsedData : String
  errMsg : String := ""
deriving DecidableEq, Repr

/-- `processXmlData` (lines 52-122 of `xmlProcessor.js`) for one fetch
result: a failed fetch yields a `'No data to process'` failure; a
successful fetch is validated (`isValidXml` plays the role of
`validateXml`) and, when valid, parsed and normalized
(`normalizeXmlStructure` is the identity, line 344). -/
def processXmlData (isValidXml : String → Bool) : FetchResult → ProcessedResult
  | .ok apiId apiName body _ =>
    if isValidXml body then ⟨true, apiId, apiName, body, ""⟩
    else ⟨false, apiId, apiName, "", "Invalid XML"⟩
  | .exhausted apiId apiName _ _ => ⟨false, apiId, apiName, "", "No data to process"⟩
  | .inFlight apiId _ => ⟨false, apiId, "", "", "No data to process"⟩

/-- One `<source>` child of the aggregated document (lines 201-208 of
`xmlProcessor.js`): id, name and timestamp attributes plus the source's
parsed content. The timestamp attribute is dropped here because outcomes
in this embedding carry no wall-clock field. -/
structure SourceEntry where
  id : String
  name : String
  content : String
deriving DecidableEq, Repr

/-- The aggregated structure built by `aggregateXmlSources` (lines
176-209): the source count attribute and the ordered `data.sources`
list. -/
structure AggregatedStructure where
  sourcesCount : Nat
  sources : List SourceEntry
deriving DecidableEq, Repr

/-- Serialization of the aggregated structure, standing for
`this.builder.build(aggregatedStructure)` (line 217): a total function of
the structure producing the combined XML text. -/
def buildAggregatedXml (s : AggregatedStructure) : String :=
  "<xml-aggregator sources=\x22" ++ toString s.sourcesCount ++ "\x22>"
    ++ String.join (s.sources.map (fun e =>
        "<source id=\x22" ++ e.id ++ "\x22 name=\x22" ++ e.name ++ "\x22>"
          ++ e.content ++ "</source>"))
    ++ "</xml-aggregator>"

/-- Return value of `aggregateXmlSources`: the success record carrying the
combined XML text and the equivalent structure (lines 226-236), or the
failure record carrying the thrown error message (lines 240-244). -/
inductive AggregationOutcome where
  | ok (xml : String) (struct : AggregatedStructure)
  | err (msg : String)
deriving DecidableEq, Repr

/-- `aggregateXmlSources` (lines 164-246 of `xmlProcessor.js`): keep the
successful processed results; if none remain, throw (caught and returned
as a failure record); otherwise build the wrapper structure containing one
`SourceEntry` per successful source, in input order, and return it
together with its serialization. -/
def aggregateXmlSources (processedResults : List ProcessedResult) : AggregationOutcome :=
  let successfulResults := processedResults.filter (fun r => r.success)
  if successfulResults.length = 0 then
    .err "No successful XML sources to aggregate"
  else
    let struct : AggregatedStructure :=
      ⟨successfulResults.length,
       successfulResults.map (fun r => ⟨r.apiId, r.apiName, r.parsedData⟩)⟩
    .ok (buildAggregatedXml struct) struct

/-- The tagged status of a pipeline response (`status` field of the
`/api/aggregated` handler's JSON responses). -/
inductive RunStatus where
  | success
  | warning
  | error
deriving DecidableEq, Repr

/-- Response of the `/api/aggregated` handler: HTTP status code, tagged
status, and the combined document (`data`/`aggregatedXml` field, absent on
warning and error responses). -/
structure HandlerResponse where
  httpStatus : Nat
  status : RunStatus
  combinedXml : Option String
deriving DecidableEq, Repr

/-- The `/api/aggregated` request handler (`setupRoutes`, lines 272-446 of
`app.js`): with no enabled API it returns the `status: 'warning'` response
with `data: null` (lines 287-295); otherwise it fetches all APIs, returns
a 503 error when no fetch succeeded, processes the successful fetches,
returns a 422 error when none parsed as valid XML, aggregates the valid
ones, returns a 500 error when aggregation failed, and otherwise answers
with the combined document. -/
def aggregatedHandler (enabledApis : List ApiConfig) (st : FetcherState)
    (behavior : String → Nat → AttemptOutcome) (isValidXml : String → Bool)
    (sequential : Bool) : HandlerResponse :=
  if enabledApis.length = 0 then
    ⟨200, .warning, none⟩
  else
    match fetchAllApis st behavior enabledApis sequential with
    | .emptyList => ⟨500, .error, none⟩
    | .record _ _ _ results =>
      let successfulFetches := results.filter (fun r => r.success)
      if successfulFetches.length = 0 then
        ⟨503, .error, none⟩
      else
        let processed := successfulFetches.map (processXmlData isValidXml)
        let successfulProcessing := processed.filter (fun r => r.success)
        if successfulProcessing.length = 0 then
          ⟨422, .error, none⟩
        else
          match aggregateXmlSources successfulProcessing with
          | .err _ => ⟨500, .error, none⟩
          | .ok xml _ => ⟨200, .success, some xml⟩

/-- One stored cache record, in either tier: the payload plus the expiry
bookkeeping written by `set`/`setInMemory` (`{data, timestamp, ttl,
expiresAt}` in `cacheManager.js`). -/
structure CacheEntry where
  data : String
  timestamp : Nat
  ttl : Nat
  expiresAt : Nat
deriving DecidableEq, Repr

/-- A JS `Map` from string keys to cache records, kept in insertion order:
setting an existing key updates it in place, setting a new key appends. -/
abbrev CacheMap := List (String × CacheEntry)

/-- Lookup in a `CacheMap` (JS `Map.get`). -/
def mapGet (m : CacheMap) (k : String) : Option CacheEntry :=
  (m.find? (fun p => p.fst = k)).map Prod.snd

/-- Update/insert in a `CacheMap` (JS `Map.set`): an existing key keeps its
position, a new key is appended at the end. -/
def mapSet (m : CacheMap) (k : String) (v : CacheEntry) : CacheMap :=
  if m.any (fun p => p.fst = k) then
    m.map (fun p => if p.fst = k then (k, v) else p)
  else m ++ [(k, v)]

/-- Removal from a `CacheMap` (JS `Map.delete`), dropping the entry with
the given key if present. -/
def mapRemove (m : CacheMap) (k : String) : CacheMap :=
  m.eraseP (fun p => p.fst = k)

/-- Full state of the `CacheManager`: the fast in-memory tier (bounded by
`maxMemorySize`, default 50), the durable on-disk tier (one `.cache` file
per key, modelled as a key-record map), and the statistics counters. -/
structure CacheState where
  memoryCache : CacheMap
  disk : CacheMap
  maxMemorySize : Nat := 50
  hits : Nat := 0
  misses : Nat := 0
  sets : Nat := 0
  deletes : Nat := 0
  evictions : Nat := 0
  totalSize : Nat := 0
deriving DecidableEq, Repr

/-- `isExpired` (line 339): `Date.now() > data.expiresAt`. -/
def isExpired (now : Nat) (e : CacheEntry) : Bool :=
  decide (e.expiresAt < now)

/-- The eviction step at the top of `setInMemory` (lines 289-293): when
the fast tier is at or above capacity, drop the oldest-inserted entry
(the map's first key, `keys().next().value`) and count the eviction. -/
def evictOldest (st : CacheState) : CacheState :=
  if st.maxMemorySize ≤ st.memoryCache.length then
    match st.memoryCache with
    | [] => { st with evictions := st.evictions + 1 }
    | _ :: rest => { st with memoryCache := rest, evictions := st.evictions + 1 }
  else st

/-- `setInMemory` (lines 287-301): evict the oldest entry if the fast tier
is full, then store the new record under the key. Only the memory tier is
touched. -/
def setInMemory (now : Nat) (key payload : String) (ttl : Nat) (st : CacheState) : CacheState :=
  let st1 := evictOldest st
  { st1 with memoryCache := mapSet st1.memoryCache key ⟨payload, now, ttl, now + ttl⟩ }

/-- `get` (lines 65-91): return the memory entry if present and fresh;
otherwise fall back to the disk entry, promoting it to memory when fresh;
an expired or missing entry in both tiers is a miss returning `null`, and
`get` never deletes the expired records it skips. -/
def cacheGet (now : Nat) (key : String) (st : CacheState) : Option String × CacheState :=
  let diskStep : Option String × CacheState :=
    match mapGet st.disk key with
    | some d =>
      if isExpired now d then (none, { st with misses := st.misses + 1 })
      else
        let st1 := setInMemory now key d.data d.ttl st
        (some d.data, { st1 with hits := st1.hits + 1 })
    | none => (none, { st with misses := st.misses + 1 })
  match mapGet st.memoryCache key with
  | some m =>
    if isExpired now m then diskStep
    else (some m.data, { st with hits := st.hits + 1 })
  | none => diskStep

/-- `set` (lines 100-124): write the record to the memory tier
(`setInMemory`) and to the disk tier, then update the `sets` and
`totalSize` statistics. -/
def cacheSet (now : Nat) (key payload : String) (ttl : Nat) (st : CacheState) : CacheState :=
  let st1 := setInMemory now key payload ttl st
  let st2 := { st1 with disk := mapSet st1.disk key ⟨payload, now, ttl, now + ttl⟩ }
  { st2 with sets := st2.sets + 1, totalSize := st2.memoryCache.length }

/-- What `delete` returns together with the state it leaves behind. -/
structure DeleteCallResult where
  removed : Bool
  state : CacheState
deriving DecidableEq, Repr

/-- `delete` (lines 131-155): remove the key from the memory tier,
remembering whether a memory entry existed (`Map.delete`'s return value),
unlink the disk record regardless, bump `deletes`/`totalSize` only when
the memory entry existed, and return the memory-tier deletion flag. -/
def cacheDelete (key : String) (st : CacheState) : DeleteCallResult :=
  let memoryDeleted := st.memoryCache.any (fun p => p.fst = key)
  let st1 := { st with
    memoryCache := mapRemove st.memoryCache key
    disk := mapRemove st.disk key }
  if memoryDeleted then
    ⟨true, { st1 with deletes := st1.deletes + 1, totalSize := st1.memoryCache.length }⟩
  else
    ⟨false, st1⟩

/-- The key material hashed by `generateCacheKey` (lines 47-58): the api id
together with the minute bucket `Math.floor(Date.now() / 60000)`; the md5
digest of its JSON serialization is not modelled, the pre-hash material
is. -/
structure CacheKeyData where
  apiId : String
  timestampBucket : Nat
deriving DecidableEq, Repr

/-- The `keyData` value inside `generateCacheKey`. -/
def generateCacheKeyData (apiId : String) (now : Nat) : CacheKeyData :=
  ⟨apiId, now / 60000⟩

/-- The key `setApiData`/`getApiData` actually use for a source's
per-source cache entries (line 245): the literal string `api_` followed by
the api id. -/
def apiDataKey (apiId : String) : String :=
  "api_" ++ apiId

/-- `setApiData` (lines 242-252): derive the TTL from the source's fetch
interval (`max(30000, interval*1000*0.5)` ms) and store the payload under
`apiDataKey`. -/
def setApiData (now : Nat) (apiId payload : String) (interval : Nat) (st : CacheState) : CacheState :=
  let ttl := max 30000 (interval * 500)
  cacheSet now (apiDataKey apiId) payload ttl st

theorem fetchSequentially_eq (ps : List FetchResult) :
    ∀ acc, fetchSequentially ps acc = acc ++ ps := by
  induction ps with
  | nil => intro acc; simp [fetchSequentially]
  | cons p ps ih => intro acc; simp [fetchSequentially, ih]

/-- C1: for every descriptor list D of length n, the bulk fetch
(`fetchAllApis`, parallel and sequential modes alike) returns a results
list of length n whose i-th element is the outcome computed for `D[i]`;
no descriptor's failure removes or reorders another descriptor's
outcome. -/
theorem fetchAllApis_order_preserving (st : FetcherState)
    (behavior : String → Nat → AttemptOutcome) (D : List ApiConfig)
    (sequential : Bool) (h : D ≠ []) :
    ∃ s f,
      fetchAllApis st behavior D sequential
        = .record D.length s f (D.map (fetchOutcome st behavior))
      ∧ (D.map (fetchOutcome st behavior)).length = D.length
      ∧ ∀ i (hi : i < D.length),
          (D.map (fetchOutcome st behavior)).get ⟨i, by simpa using hi⟩
            = fetchOutcome st behavior (D.get ⟨i, hi⟩) := by
  refine ⟨((D.map (fetchOutcome st behavior)).filter (fun r => r.success)).length,
          ((D.map (fetchOutcome st behavior)).filter (fun r => !r.success)).length,
          ?_, by simp, ?_⟩
  · have hne : D.isEmpty = false := by
      cases D with
      | nil => exact absurd rfl h
      | cons a as => rfl
    cases sequential <;>
      simp [fetchAllApis, hne, promiseAll, fetchSequentially_eq]
  · intro i hi
    simp [List.getElem_map]

/-- Closed witness for `fetchAllApis_order_preserving` at a one-element
descriptor list. -/
theorem fetchAllApis_order_preserving_witness :
    ∃ s f,
      fetchAllApis ⟨[]⟩ (fun _ _ => .ok "<r/>") [⟨"a", "A", "http://a", 3⟩] true
        = .record 1 s f
            ([⟨"a", "A", "http://a", 3⟩].map (fetchOutcome ⟨[]⟩ (fun _ _ => .ok "<r/>")))
      ∧ ([⟨"a", "A", "http://a", 3⟩].map (fetchOutcome ⟨[]⟩ (fun _ _ => .ok "<r/>"))).length = 1
      ∧ ∀ i (hi : i < 1),
          ([⟨"a", "A", "http://a", 3⟩].map
              (fetchOutcome ⟨[]⟩ (fun _ _ => .ok "<r/>"))).get ⟨i, by simpa using hi⟩
            = fetchOutcome ⟨[]⟩ (fun _ _ => .ok "<r/>")
                ([⟨"a", "A", "http://a", 3⟩].get ⟨i, hi⟩) :=
  fetchAllApis_order_preserving ⟨[]⟩ (fun _ _ => .ok "<r/>")
    [⟨"a", "A", "http://a", 3⟩] true (by simp)

/-- C3: a descriptor configured with `retries = 3` whose every attempt
fails makes `fetchApiData` perform exactly 3 attempts and return the
terminal exhausted failure carrying `attempts = 3`. -/
theorem fetchApiData_retry_bound (st : FetcherState) (cfg : ApiConfig)
    (oracle : Nat → AttemptOutcome) (hr : cfg.retries = 3)
    (hid : cfg.id ∉ st.activeRequests)
    (hfail : ∀ n, ∃ m, oracle n = .fail m) :
    (fetchApiData st cfg oracle).attemptsMade = 3
    ∧ ∃ msg, (fetchApiData st cfg oracle).result
        = .exhausted cfg.id cfg.name msg 3 := by
  obtain ⟨m1, h1⟩ := hfail 1
  obtain ⟨m2, h2⟩ := hfail 2
  obtain ⟨m3, h3⟩ := hfail 3
  have hloop : retryLoop oracle 1 (maxRetriesOf cfg) = .failedAll m3 3 := by
    simp [maxRetriesOf, hr, retryLoop, h1, h2, h3]
  refine ⟨?_, m3, ?_⟩ <;>
    simp [fetchApiData, hid, hloop, LoopResult.attemptCount]

/-- Closed witness for `fetchApiData_retry_bound`: a concrete descriptor
with `retries = 3` and an always-failing oracle. -/
theorem fetchApiData_retry_bound_witness :
    (fetchApiData ⟨[]⟩ ⟨"a", "A", "http://a", 3⟩ (fun _ => .fail "boom")).attemptsMade = 3
    ∧ ∃ msg, (fetchApiData ⟨[]⟩ ⟨"a", "A", "http://a", 3⟩ (fun _ => .fail "boom")).result
        = .exhausted "a" "A" msg 3 :=
  fetchApiData_retry_bound ⟨[]⟩ ⟨"a", "A", "http://a", 3⟩ (fun _ => .fail "boom")
    rfl (by simp) (fun n => ⟨"boom", rfl⟩)

/-- C4: while a descriptor id is registered in `activeRequests`, a second
`fetchApiData` call for the same id returns the in-progress failure
immediately, performs zero attempts and leaves the state (hence the first
call's registration) untouched; and any call that does register the id
removes the registration when it completes, whatever its outcome. -/
theorem fetchApiData_inflight_dedup (st : FetcherState) (cfg : ApiConfig)
    (oracle : Nat → AttemptOutcome) (h : cfg.id ∈ st.activeRequests) :
    fetchApiData st cfg oracle
      = ⟨.inFlight cfg.id "Request already in progress", st, 0⟩
    ∧ ∀ (st' : FetcherState) (oracle' : Nat → AttemptOutcome),
        cfg.id ∉ st'.activeRequests →
        (fetchApiData st' cfg oracle').state = st' := by
  constructor
  · simp [fetchApiData, h]
  · intro st' oracle' h'
    have herase : (st'.activeRequests ++ [cfg.id]).erase cfg.id
        = st'.activeRequests := by
      rw [List.erase_append_right _ h']
      simp
    simp [fetchApiData, h', herase]

/-- Closed witness for `fetchApiData_inflight_dedup`: id `a` registered,
second call short-circuits; a call on the empty tracker deregisters. -/
theorem fetchApiData_inflight_dedup_witness :
    fetchApiData ⟨["a"]⟩ ⟨"a", "A", "http://a", 3⟩ (fun _ => .ok "<r/>")
      = ⟨.inFlight "a" "Request already in progress", ⟨["a"]⟩, 0⟩
    ∧ (fetchApiData ⟨[]⟩ ⟨"a", "A", "http://a", 3⟩ (fun _ => .ok "<r/>")).state = ⟨[]⟩ :=
  ⟨(fetchApiData_inflight_dedup ⟨["a"]⟩ ⟨"a", "A", "http://a", 3⟩
      (fun _ => .ok "<r/>") (by simp)).1,
   (fetchApiData_inflight_dedup ⟨["a"]⟩ ⟨"a", "A", "http://a", 3⟩
      (fun _ => .ok "<r/>") (by simp)).2 ⟨[]⟩ (fun _ => .ok "<r/>") (by simp)⟩

/-- C9: with an empty enabled-descriptor list `fetchAllApis` returns the
bare empty list, while every non-empty list produces the summary record —
two different shapes at the public interface. -/
theorem fetchAllApis_empty_shape (st : FetcherState)
    (behavior : String → Nat → AttemptOutcome) (sequential : Bool) :
    fetchAllApis st behavior [] sequential = .emptyList
    ∧ (∀ D : List ApiConfig, D ≠ [] →
        ∃ t s f rs, fetchAllApis st behavior D sequential = .record t s f rs)
    ∧ ∀ t s f rs, FetchAllReturn.emptyList ≠ .record t s f rs := by
  refine ⟨by simp [fetchAllApis], ?_, by intro t s f rs hbad; cases hbad⟩
  intro D hD
  have hne : D.isEmpty = false := by
    cases D with
    | nil => exact absurd rfl hD
    | cons a as => rfl
  simp only [fetchAllApis, hne, Bool.false_eq_true, if_false]
  exact ⟨_, _, _, _, rfl⟩

/-- Closed witness for `fetchAllApis_empty_shape`: the empty case and a
one-descriptor case. -/
theorem fetchAllApis_empty_shape_witness :
    fetchAllApis ⟨[]⟩ (fun _ _ => .ok "<r/>") [] false = .emptyList
    ∧ ∃ t s f rs,
        fetchAllApis ⟨[]⟩ (fun _ _ => .ok "<r/>") [⟨"a", "A", "http://a", 3⟩] false
          = .record t s f rs :=
  ⟨(fetchAllApis_empty_shape ⟨[]⟩ (fun _ _ => .ok "<r/>") false).1,
   (fetchAllApis_empty_shape ⟨[]⟩ (fun _ _ => .ok "<r/>") false).2.1
     [⟨"a", "A", "http://a", 3⟩] (by simp)⟩

/-- C2: over a list of validated sources (every element has
`success = true`), `aggregateXmlSources` returns the success record
carrying the combined XML text and structure exactly when the list is
non-empty, and fails exactly when it is empty. -/
theorem aggregateXmlSources_fails_iff_empty (input : List ProcessedResult)
    (hvalid : ∀ r ∈ input, r.success = true) :
    (∃ xml struct, aggregateXmlSources input = .ok xml struct) ↔ input ≠ [] := by
  have hfilter : input.filter (fun r => r.success) = input :=
    List.filter_eq_self.mpr hvalid
  constructor
  · rintro ⟨xml, struct, hok⟩ hnil
    subst hnil
    simp [aggregateXmlSources] at hok
  · intro hne
    have hlen : input.length ≠ 0 := by
      simpa [List.length_eq_zero] using hne
    refine ⟨buildAggregatedXml
        ⟨input.length, input.map (fun r => ⟨r.apiId, r.apiName, r.parsedData⟩)⟩,
      ⟨input.length, input.map (fun r => ⟨r.apiId, r.apiName, r.parsedData⟩)⟩, ?_⟩
    simp [aggregateXmlSources, hfilter, hlen]

/-- Closed witness for `aggregateXmlSources_fails_iff_empty` at a
one-element validated list. -/
theorem aggregateXmlSources_fails_iff_empty_witness :
    ∃ xml struct,
      aggregateXmlSources [⟨true, "a", "A", "<r/>", ""⟩] = .ok xml struct :=
  (aggregateXmlSources_fails_iff_empty [⟨true, "a", "A", "<r/>", ""⟩]
    (by decide)).mpr (by decide)

/-- C8: with an empty enabled-source list the `/api/aggregated` handler
returns the `status = warning` response with a `null` combined document,
while every run over a non-empty source list ends in `success` or `error`,
never `warning` — the two statuses are distinct values. -/
theorem aggregatedHandler_empty_warning (st : FetcherState)
    (behavior : String → Nat → AttemptOutcome) (isValidXml : String → Bool)
    (sequential : Bool) :
    aggregatedHandler [] st behavior isValidXml sequential = ⟨200, .warning, none⟩
    ∧ (∀ apis : List ApiConfig, apis ≠ [] →
        (aggregatedHandler apis st behavior isValidXml sequential).status ≠ .warning)
    ∧ RunStatus.warning ≠ RunStatus.error := by
  refine ⟨by simp [aggregatedHandler], ?_, by simp⟩
  intro apis hne
  have hlen : apis.length = 0 ↔ False := by
    simpa [List.length_eq_zero] using hne
  simp only [aggregatedHandler, hlen, if_false]
  split
  · simp
  · split
    · simp
    · split
      · simp
      · split <;> simp

/-- Closed witness for `aggregatedHandler_empty_warning`: the empty
configuration and a concrete one-source run. -/
theorem aggregatedHandler_empty_warning_witness :
    aggregatedHandler [] ⟨[]⟩ (fun _ _ => .ok "<r/>") (fun _ => true) false
      = ⟨200, .warning, none⟩
    ∧ (aggregatedHandler [⟨"a", "A", "http://a", 3⟩] ⟨[]⟩
        (fun _ _ => .ok "<r/>") (fun _ => true) false).status ≠ .warning :=
  ⟨(aggregatedHandler_empty_warning ⟨[]⟩ (fun _ _ => .ok "<r/>") (fun _ => true) false).1,
   (aggregatedHandler_empty_warning ⟨[]⟩ (fun _ _ => .ok "<r/>") (fun _ => true) false).2.1
     [⟨"a", "A", "http://a", 3⟩] (by simp)⟩

theorem mapGet_eq_none_iff (m : CacheMap) (k : String) :
    mapGet m k = none ↔ ∀ p ∈ m, p.fst ≠ k := by
  simp [mapGet, List.find?_eq_none]

theorem mapSet_of_get_none (m : CacheMap) (k : String) (v : CacheEntry)
    (h : mapGet m k = none) : mapSet m k v = m ++ [(k, v)] := by
  have hmem := (mapGet_eq_none_iff m k).mp h
  have hany : m.any (fun p => p.fst = k) = false := by
    simp only [List.any_eq_false, decide_eq_true_eq]
    exact hmem
  simp [mapSet, hany]

theorem mapSet_length_le (m : CacheMap) (k : String) (v : CacheEntry) :
    (mapSet m k v).length ≤ m.length + 1 := by
  unfold mapSet
  split
  · simp
  · simp

theorem map_fst_keys (ks : List String) (e : CacheEntry) :
    (ks.map (fun k => (k, e))).map Prod.fst = ks := by
  induction ks with
  | nil => rfl
  | cons a ks ih => simp [ih]

theorem mapGet_keys_none (ks : List String) (e : CacheEntry) (k : String)
    (h : k ∉ ks) : mapGet (ks.map (fun k' => (k', e))) k = none := by
  rw [mapGet_eq_none_iff]
  intro p hp
  obtain ⟨k', hk', rfl⟩ := List.mem_map.mp hp
  exact fun hfst => h (hfst ▸ hk')

theorem evictOldest_disk (st : CacheState) : (evictOldest st).disk = st.disk := by
  unfold evictOldest
  split
  · split <;> rfl
  · rfl

theorem evictOldest_maxMemorySize (st : CacheState) :
    (evictOldest st).maxMemorySize = st.maxMemorySize := by
  unfold evictOldest
  split
  · split <;> rfl
  · rfl

theorem evictOldest_of_lt (st : CacheState)
    (h : st.memoryCache.length < st.maxMemorySize) : evictOldest st = st := by
  unfold evictOldest
  rw [if_neg (not_le.mpr h)]

theorem setInMemory_disk (now : Nat) (key payload : String) (ttl : Nat)
    (st : CacheState) : (setInMemory now key payload ttl st).disk = st.disk := by
  simp [setInMemory, evictOldest_disk]

theorem setInMemory_maxMemorySize (now : Nat) (key payload : String) (ttl : Nat)
    (st : CacheState) :
    (setInMemory now key payload ttl st).maxMemorySize = st.maxMemorySize := by
  simp [setInMemory, evictOldest_maxMemorySize]

theorem foldl_setInMemory_fill (now : Nat) (payload : String) (ttl : Nat) :
    ∀ (ks : List String) (st : CacheState), ks.Nodup →
      (∀ k ∈ ks, mapGet st.memoryCache k = none) →
      st.memoryCache.length + ks.length ≤ st.maxMemorySize →
      (ks.foldl (fun s k => setInMemory now k payload ttl s) st).memoryCache
        = st.memoryCache ++ ks.map (fun k => (k, ⟨payload, now, ttl, now + ttl⟩)) := by
  intro ks
  induction ks with
  | nil => intro st _ _ _; simp
  | cons k ks ih =>
    intro st hnd habsent hlen
    have hlt : st.memoryCache.length < st.maxMemorySize := by
      simp only [List.length_cons] at hlen
      omega
    have hone : setInMemory now k payload ttl st
        = { evictOldest st with
              memoryCache := mapSet (evictOldest st).memoryCache k
                ⟨payload, now, ttl, now + ttl⟩ } := rfl
    have hnoev : evictOldest st = st := evictOldest_of_lt st hlt
    have happ : mapSet st.memoryCache k ⟨payload, now, ttl, now + ttl⟩
        = st.memoryCache ++ [(k, ⟨payload, now, ttl, now + ttl⟩)] :=
      mapSet_of_get_none _ _ _ (habsent k (by simp))
    have hstep : setInMemory now k payload ttl st
        = { st with memoryCache
              := st.memoryCache ++ [(k, ⟨payload, now, ttl, now + ttl⟩)] } := by
      rw [hone, hnoev, happ]
    have hknotin : k ∉ ks := (List.nodup_cons.mp hnd).1
    have habsent' : ∀ k' ∈ ks,
        mapGet (st.memoryCache ++ [(k, ⟨payload, now, ttl, now + ttl⟩)]) k' = none := by
      intro k' hk'
      rw [mapGet_eq_none_iff]
      intro p hp
      rcases List.mem_append.mp hp with hp1 | hp2
      · exact (mapGet_eq_none_iff _ _).mp (habsent k' (by simp [hk'])) p hp1
      · have hpk : p = (k, ⟨payload, now, ttl, now + ttl⟩) := by simpa using hp2
        subst hpk
        intro hfst
        have hkk : k = k' := hfst
        subst hkk
        exact hknotin hk'
    have hlen2 : (st.memoryCache
          ++ [(k, CacheEntry.mk payload now ttl (now + ttl))]).length
        + ks.length ≤ st.maxMemorySize := by
      simp only [List.length_append, List.length_singleton]
      simp only [List.length_cons] at hlen
      omega
    have := ih { st with memoryCache
        := st.memoryCache ++ [(k, ⟨payload, now, ttl, now + ttl⟩)] }
      (List.nodup_cons.mp hnd).2 habsent' hlen2
    simp only [List.foldl_cons, hstep]
    rw [this]
    simp


theorem setInMemory_eq (now : Nat) (key payload : String) (ttl : Nat)
    (st : CacheState) :
    setInMemory now key payload ttl st
      = { evictOldest st with
            memoryCache := mapSet (evictOldest st).memoryCache key
              ⟨payload, now, ttl, now + ttl⟩ } := rfl

theorem evictOldest_full (st : CacheState) (p : String × CacheEntry)
    (rest : CacheMap) (hmc : st.memoryCache = p :: rest)
    (h : st.maxMemorySize ≤ st.memoryCache.length) :
    evictOldest st
      = { st with memoryCache := rest, evictions := st.evictions + 1 } := by
  unfold evictOldest
  rw [if_pos h, hmc]

theorem foldl_setInMemory_max (now : Nat) (payload : String) (ttl : Nat) :
    ∀ (ks : List String) (st : CacheState),
      (ks.foldl (fun s k => setInMemory now k payload ttl s) st).maxMemorySize
        = st.maxMemorySize := by
  intro ks
  induction ks with
  | nil => intro st; rfl
  | cons k ks ih =>
    intro st
    simp only [List.foldl_cons]
    rw [ih, setInMemory_maxMemorySize]

/-- C6: the fast memory tier never exceeds its capacity; at capacity,
`setInMemory` with a fresh key evicts exactly the single oldest-inserted
entry (keeping every other entry in order) and never touches the durable
tier; and inserting capacity+1 distinct keys into an empty fast tier
leaves exactly the last capacity keys resident, the first-inserted key
evicted. -/
theorem setInMemory_capacity_eviction (now : Nat) (key payload : String)
    (ttl : Nat) (st : CacheState) (ks : List String)
    (hcap : 1 ≤ st.maxMemorySize) :
    (setInMemory now key payload ttl st).disk = st.disk
    ∧ (st.memoryCache.length ≤ st.maxMemorySize →
        (setInMemory now key payload ttl st).memoryCache.length ≤ st.maxMemorySize)
    ∧ (st.memoryCache.length = st.maxMemorySize →
        mapGet st.memoryCache key = none →
        (setInMemory now key payload ttl st).memoryCache
          = st.memoryCache.tail ++ [(key, ⟨payload, now, ttl, now + ttl⟩)])
    ∧ (ks.Nodup → ks.length = st.maxMemorySize + 1 → st.memoryCache = [] →
        (ks.foldl (fun s k => setInMemory now k payload ttl s) st).memoryCache.map Prod.fst
          = ks.tail) := by
  refine ⟨setInMemory_disk now key payload ttl st, ?_, ?_, ?_⟩
  · intro hle
    rcases lt_or_eq_of_le hle with hlt | heq
    · rw [setInMemory_eq, evictOldest_of_lt st hlt]
      calc (mapSet st.memoryCache key ⟨payload, now, ttl, now + ttl⟩).length
          ≤ st.memoryCache.length + 1 := mapSet_length_le _ _ _
        _ ≤ st.maxMemorySize := hlt
    · cases hmc : st.memoryCache with
      | nil =>
        rw [hmc] at heq
        simp at heq
        omega
      | cons p rest =>
        have hev := evictOldest_full st p rest hmc (le_of_eq heq.symm)
        rw [setInMemory_eq, hev]
        show (mapSet rest key ⟨payload, now, ttl, now + ttl⟩).length ≤ st.maxMemorySize
        have hrest : rest.length + 1 = st.maxMemorySize := by
          rw [← heq, hmc]
          simp
        calc (mapSet rest key ⟨payload, now, ttl, now + ttl⟩).length
            ≤ rest.length + 1 := mapSet_length_le _ _ _
          _ = st.maxMemorySize := hrest
  · intro heq hnone
    cases hmc : st.memoryCache with
    | nil =>
      rw [hmc] at heq
      simp at heq
      omega
    | cons p rest =>
      have hev := evictOldest_full st p rest hmc (le_of_eq heq.symm)
      have hnone' : mapGet rest key = none := by
        rw [mapGet_eq_none_iff]
        intro q hq
        exact (mapGet_eq_none_iff _ _).mp hnone q
          (by rw [hmc]; exact List.mem_cons_of_mem _ hq)
      rw [setInMemory_eq, hev]
      exact mapSet_of_get_none _ _ _ hnone'
  · intro hnd hlen hempty
    have hne : ks ≠ [] := by
      intro hbad
      rw [hbad] at hlen
      simp at hlen
    have hsplit : ks.dropLast ++ [ks.getLast hne] = ks :=
      List.dropLast_append_getLast hne
    have hndL : (ks.dropLast ++ [ks.getLast hne]).Nodup := by
      rw [hsplit]
      exact hnd
    have hdisj := (List.nodup_append.mp hndL).2.2
    have hxnot : ks.getLast hne ∉ ks.dropLast := by
      intro hbad
      exact hdisj hbad (by simp)
    have hlenL : ks.dropLast.length = st.maxMemorySize := by
      rw [List.length_dropLast, hlen]
      omega
    have hfill := foldl_setInMemory_fill now payload ttl ks.dropLast st
      (List.Nodup.of_append_left hndL)
      (fun k _ => by rw [hempty]; simp [mapGet])
      (by rw [hempty, hlenL]; simp)
    have hmidmax : (ks.dropLast.foldl (fun s k => setInMemory now k payload ttl s) st).maxMemorySize
        = st.maxMemorySize := foldl_setInMemory_max now payload ttl ks.dropLast st
    obtain ⟨l0, L2, hL⟩ : ∃ l0 L2, ks.dropLast = l0 :: L2 := by
      cases hd : ks.dropLast with
      | nil =>
        rw [hd] at hlenL
        simp at hlenL
        omega
      | cons a b => exact ⟨a, b, rfl⟩
    have hmidmem : (ks.dropLast.foldl (fun s k => setInMemory now k payload ttl s) st).memoryCache
        = (l0, ⟨payload, now, ttl, now + ttl⟩)
            :: L2.map (fun k' => (k', ⟨payload, now, ttl, now + ttl⟩)) := by
      rw [hfill, hempty, hL]
      simp
    have hfullmid : (ks.dropLast.foldl (fun s k => setInMemory now k payload ttl s) st).maxMemorySize
        ≤ (ks.dropLast.foldl (fun s k => setInMemory now k payload ttl s) st).memoryCache.length := by
      rw [hmidmax, hfill, hempty]
      simp only [List.nil_append, List.length_map]
      omega
    have hev := evictOldest_full _ _ _ hmidmem hfullmid
    have hxnotL2 : ks.getLast hne ∉ L2 := by
      intro hbad
      exact hxnot (by rw [hL]; exact List.mem_cons_of_mem _ hbad)
    have hlast : mapSet (L2.map (fun k' => (k', ⟨payload, now, ttl, now + ttl⟩)))
        (ks.getLast hne) ⟨payload, now, ttl, now + ttl⟩
        = L2.map (fun k' => (k', ⟨payload, now, ttl, now + ttl⟩))
            ++ [(ks.getLast hne, ⟨payload, now, ttl, now + ttl⟩)] :=
      mapSet_of_get_none _ _ _ (mapGet_keys_none L2 _ _ hxnotL2)
    have htail : ks.tail = L2 ++ [ks.getLast hne] := by
      conv_lhs => rw [← hsplit, hL]
      simp
    conv_lhs => rw [← hsplit]
    rw [List.foldl_append]
    simp only [List.foldl_cons, List.foldl_nil]
    rw [setInMemory_eq, hev]
    show (mapSet (L2.map (fun k' => (k', ⟨payload, now, ttl, now + ttl⟩)))
        (ks.getLast hne) ⟨payload, now, ttl, now + ttl⟩).map Prod.fst = ks.tail
    rw [hlast, htail, List.map_append, map_fst_keys]
    simp

/-- Closed witness for `setInMemory_capacity_eviction`: a tier of capacity
2 holding keys `k0`, `k1`; inserting `k2` evicts `k0` only, and folding
the three distinct keys into an empty tier leaves `k1`, `k2`. -/
theorem setInMemory_capacity_eviction_witness :
    (setInMemory 7 "k2" "v" 5
        ⟨[("k0", ⟨"v", 0, 5, 5⟩), ("k1", ⟨"v", 1, 5, 6⟩)], [], 2, 0, 0, 0, 0, 0, 0⟩).disk = []
    ∧ (setInMemory 7 "k2" "v" 5
        ⟨[("k0", ⟨"v", 0, 5, 5⟩), ("k1", ⟨"v", 1, 5, 6⟩)], [], 2, 0, 0, 0, 0, 0, 0⟩).memoryCache.length ≤ 2
    ∧ (setInMemory 7 "k2" "v" 5
        ⟨[("k0", ⟨"v", 0, 5, 5⟩), ("k1", ⟨"v", 1, 5, 6⟩)], [], 2, 0, 0, 0, 0, 0, 0⟩).memoryCache
        = [("k1", ⟨"v", 1, 5, 6⟩), ("k2", ⟨"v", 7, 5, 12⟩)]
    ∧ (["a", "b", "c"].foldl (fun s k => setInMemory 7 k "v" 5 s)
        ⟨[], [], 2, 0, 0, 0, 0, 0, 0⟩).memoryCache.map Prod.fst = ["b", "c"] := by
  have h := setInMemory_capacity_eviction 7 "k2" "v" 5
    ⟨[("k0", ⟨"v", 0, 5, 5⟩), ("k1", ⟨"v", 1, 5, 6⟩)], [], 2, 0, 0, 0, 0, 0, 0⟩
    ["a", "b", "c"] (by decide)
  have h2 := setInMemory_capacity_eviction 7 "a" "v" 5
    ⟨[], [], 2, 0, 0, 0, 0, 0, 0⟩ ["a", "b", "c"] (by decide)
  refine ⟨h.1, h.2.1 (by decide), ?_, h2.2.2.2 (by decide) (by decide) rfl⟩
  have h3 := h.2.2.1 (by decide) (by decide)
  rw [h3]
  decide

/-- C5: when the stored entry for a key is expired in whichever tier holds
one, `get` reports the key absent and leaves the stored entries of both
tiers exactly as they were — the expired records are skipped, not
deleted. -/
theorem cacheGet_expired_absent_frame (now : Nat) (key : String) (st : CacheState)
    (hmem : (mapGet st.memoryCache key).all (fun e => isExpired now e) = true)
    (hdisk : (mapGet st.disk key).all (fun e => isExpired now e) = true) :
    (cacheGet now key st).1 = none
    ∧ (cacheGet now key st).2.memoryCache = st.memoryCache
    ∧ (cacheGet now key st).2.disk = st.disk := by
  cases hm : mapGet st.memoryCache key with
  | some m =>
    rw [hm] at hmem
    have hexp : isExpired now m = true := by simpa using hmem
    cases hd : mapGet st.disk key with
    | some d =>
      rw [hd] at hdisk
      have hexpd : isExpired now d = true := by simpa using hdisk
      simp [cacheGet, hm, hd, hexp, hexpd]
    | none => simp [cacheGet, hm, hd, hexp]
  | none =>
    cases hd : mapGet st.disk key with
    | some d =>
      rw [hd] at hdisk
      have hexpd : isExpired now d = true := by simpa using hdisk
      simp [cacheGet, hm, hd, hexpd]
    | none => simp [cacheGet, hm, hd]

/-- Closed witness for `cacheGet_expired_absent_frame`: the spec scenario
`set(k, v, ttl = 100ms)` followed by `get(k)` at 150ms returns absent and
mutates neither tier. -/
theorem cacheGet_expired_absent_frame_witness :
    (cacheGet 150 "k" (cacheSet 0 "k" "v" 100 ⟨[], [], 50, 0, 0, 0, 0, 0, 0⟩)).1 = none
    ∧ (cacheGet 150 "k" (cacheSet 0 "k" "v" 100 ⟨[], [], 50, 0, 0, 0, 0, 0, 0⟩)).2.memoryCache
        = (cacheSet 0 "k" "v" 100 ⟨[], [], 50, 0, 0, 0, 0, 0, 0⟩).memoryCache
    ∧ (cacheGet 150 "k" (cacheSet 0 "k" "v" 100 ⟨[], [], 50, 0, 0, 0, 0, 0, 0⟩)).2.disk
        = (cacheSet 0 "k" "v" 100 ⟨[], [], 50, 0, 0, 0, 0, 0, 0⟩).disk :=
  cacheGet_expired_absent_frame 150 "k"
    (cacheSet 0 "k" "v" 100 ⟨[], [], 50, 0, 0, 0, 0, 0, 0⟩) (by decide) (by decide)

/-- C10: `delete` answers `removed = true` exactly when the key was
resident in the memory tier; the durable record is removed either way, and
the `deletes` counter moves only when the memory entry existed. -/
theorem cacheDelete_memory_tier (key : String) (st : CacheState) :
    ((cacheDelete key st).removed = true ↔ (mapGet st.memoryCache key).isSome = true)
    ∧ (cacheDelete key st).state.memoryCache = mapRemove st.memoryCache key
    ∧ (cacheDelete key st).state.disk = mapRemove st.disk key
    ∧ (cacheDelete key st).state.deletes
        = (if (mapGet st.memoryCache key).isSome then st.deletes + 1 else st.deletes) := by
  have hiff : st.memoryCache.any (fun p => p.fst = key)
      = (mapGet st.memoryCache key).isSome := by
    cases hf : st.memoryCache.find? (fun p => p.fst = key) with
    | none =>
      simp only [mapGet, hf, Option.map_none', Option.isSome_none]
      exact List.any_eq_false.mpr (List.find?_eq_none.mp hf)
    | some q =>
      simp only [mapGet, hf, Option.map_some', Option.isSome_some]
      have h1 := List.mem_of_find?_eq_some hf
      have h2 := List.find?_some hf
      exact List.any_eq_true.mpr ⟨q, h1, h2⟩
  by_cases hmem : st.memoryCache.any (fun p => p.fst = key) = true
  · have hsome : (mapGet st.memoryCache key).isSome = true := by
      rw [← hiff]
      exact hmem
    simp [cacheDelete, hmem, hsome]
  · have hb : st.memoryCache.any (fun p => p.fst = key) = false :=
      Bool.eq_false_iff.mpr hmem
    have hnone : (mapGet st.memoryCache key).isSome = false := by
      rw [← hiff]
      exact hb
    simp [cacheDelete, hb, hnone]

/-- C7 counterexample: two per-source store operations for the same source
id at times in different minute buckets (0 and 60000 ms, buckets 0 and 1)
address exactly the same cache key, refuting the claim that operations in
different buckets address different keys. -/
theorem apiDataKey_bucket_counterexample :
    (0 : Nat) / 60000 ≠ (60000 : Nat) / 60000
    ∧ (setApiData 0 "src" "a" 300 ⟨[], [], 50, 0, 0, 0, 0, 0, 0⟩).disk.map Prod.fst
      = (setApiData 60000 "src" "b" 300 ⟨[], [], 50, 0, 0, 0, 0, 0, 0⟩).disk.map Prod.fst := by
  decide

theorem mapSet_keys (m : CacheMap) (k : String) (v w : CacheEntry) :
    (mapSet m k v).map Prod.fst = (mapSet m k w).map Prod.fst := by
  by_cases h : m.any (fun p => p.fst = k) = true
  · simp only [mapSet, if_pos h]
    rw [List.map_map, List.map_map]
    refine List.map_congr_left ?_
    intro p _
    by_cases hp : p.fst = k <;> simp [Function.comp, hp]
  · have hb : m.any (fun p => p.fst = k) = false := Bool.eq_false_iff.mpr h
    simp [mapSet, hb]

/-- C7 amended: the key material of `generateCacheKey` does combine the
source id with the minute bucket `floor(now / 60000)` — equal buckets give
equal material and distinct buckets give distinct material — but the
per-source entries written by `setApiData` use the bucket-free key
`api_<id>`, so same-source store operations address the same key whatever
the bucket (`generateCacheKey` is not used on the per-source path). -/
theorem generateCacheKey_bucket_amended (apiId payload payload2 : String)
    (t1 t2 interval : Nat) (st : CacheState) :
    (t1 / 60000 = t2 / 60000 →
      generateCacheKeyData apiId t1 = generateCacheKeyData apiId t2)
    ∧ (t1 / 60000 ≠ t2 / 60000 →
      generateCacheKeyData apiId t1 ≠ generateCacheKeyData apiId t2)
    ∧ (setApiData t1 apiId payload interval st).disk.map Prod.fst
      = (setApiData t2 apiId payload2 interval st).disk.map Prod.fst := by
  refine ⟨?_, ?_, ?_⟩
  · intro h
    simp [generateCacheKeyData, h]
  · intro h hbad
    simp only [generateCacheKeyData, CacheKeyData.mk.injEq] at hbad
    exact h hbad.2
  · have hd1 : (setApiData t1 apiId payload interval st).disk
        = mapSet st.disk (apiDataKey apiId)
            ⟨payload, t1, max 30000 (interval * 500),
              t1 + max 30000 (interval * 500)⟩ := by
      simp [setApiData, cacheSet, setInMemory_disk]
    have hd2 : (setApiData t2 apiId payload2 interval st).disk
        = mapSet st.disk (apiDataKey apiId)
            ⟨payload2, t2, max 30000 (interval * 500),
              t2 + max 30000 (interval * 500)⟩ := by
      simp [setApiData, cacheSet, setInMemory_disk]
    rw [hd1, hd2]
    exact mapSet_keys _ _ _ _

/-- Closed witness for `generateCacheKey_bucket_amended` at buckets 0 and
1: distinct key material, yet the same per-source key is addressed. -/
theorem generateCacheKey_bucket_amended_witness :
    generateCacheKeyData "src" 0 ≠ generateCacheKeyData "src" 60000
    ∧ (setApiData 0 "src" "a" 300 ⟨[], [], 50, 0, 0, 0, 0, 0, 0⟩).disk.map Prod.fst
      = (setApiData 60000 "src" "b" 300 ⟨[], [], 50, 0, 0, 0, 0, 0, 0⟩).disk.map Prod.fst :=
  ⟨(generateCacheKey_bucket_amended "src" "a" "b" 0 60000 300
      ⟨[], [], 50, 0, 0, 0, 0, 0, 0⟩).2.1 (by decide),
   (generateCacheKey_bucket_amended "src" "a" "b" 0 60000 300
      ⟨[], [], 50, 0, 0, 0, 0, 0, 0⟩).2.2⟩
